import Mathlib

set_option autoImplicit false
set_option maxRecDepth 4000

/-!
Shallow embedding of the TransLingo chatbot core (src/chatbot.py).

The Python module defines a `Chatbot` class holding an encrypted, file-backed
subscriber registry (a dict from WhatsApp contact strings to records with
`name`, `lang`, `role`), a derived reverse index `display_names`, and a
message-processing entry point `process_msg` that classifies each inbound
message (private message, slash command, or plain broadcast) and dispatches.

The embedding below is state-passing: Python dicts become association lists
with Python's insertion-order semantics (`dictGet`, `dictInsert`,
`dictDelete`), the Twilio and LibreTranslate collaborators become an
environment (`Env`) holding a deterministic translation oracle and an opaque
encryption function, and every provider call is recorded in an explicit
effect log (`Effect`).  Fallible Python code (uncaught `KeyError` /
`IndexError`) is modelled with `Option`, `none` standing for an uncaught
exception.
-/

namespace TransLingo

/-- Model of Python `str.split()` (no argument): split on runs of whitespace,
dropping empty tokens.  `collect` is the accumulator of the current token's
characters in reverse order. -/
def tokens : List Char → List Char → List String
  | [], [] => []
  | [], acc => [String.mk acc.reverse]
  | c :: rest, acc =>
    if c.isWhitespace then
      match acc with
      | [] => tokens rest []
      | _ :: _ => String.mk acc.reverse :: tokens rest []
    else tokens rest (c :: acc)

/-- Python `msg.split()`. -/
def pySplit (s : String) : List String := tokens s.data []

/-- Model of Python `str.lower()` for the ASCII range (the only case the
bot's command tokens exercise). -/
def lowerChar (c : Char) : Char :=
  if 65 ≤ c.toNat ∧ c.toNat ≤ 90 then Char.ofNat (c.toNat + 32) else c

/-- Python `s.lower()`. -/
def pyLower (s : String) : String := String.mk (s.data.map lowerChar)

/-- Python `s[0:1]`. -/
def pyTake1 (s : String) : String := String.mk (s.data.take 1)

/-- Python `s[1:]`. -/
def pyDropFirst (s : String) : String := String.mk (s.data.drop 1)

/-- Python `len(s)`. -/
def pyLen (s : String) : Nat := s.data.length

/-- Python `" ".join(l)`. -/
def joinSp : List String → String
  | [] => ""
  | [s] => s
  | s :: rest => s ++ " " ++ joinSp rest

/-- Python `c.isdigit()` for one ASCII character. -/
def digitChar (c : Char) : Bool := decide (48 ≤ c.toNat ∧ c.toNat ≤ 57)

/-- The phone-number format check of `Chatbot._add_subscriber`:
`new_contact.startswith("+") and new_contact[1:].isdigit()` (Python
`isdigit` is false on the empty string). -/
def phoneOk (s : String) : Bool :=
  match s.data with
  | [] => false
  | c :: rest => c = '+' && !rest.isEmpty && rest.all digitChar

/-- One subscriber record: the values of the Python `subscribers` dict
(`SubscribersInfo`). -/
structure SubscriberInfo where
  name : String
  lang : String
  role : String
deriving DecidableEq, Repr

/-- The `subscribers` dict, keyed by WhatsApp contact strings, in insertion
order. -/
abbrev Registry := List (String × SubscriberInfo)

/-- Python dict lookup `d[k]` / `d.get(k)`: first (and in a real dict only)
binding of `k`. -/
def dictGet {α : Type} : List (String × α) → String → Option α
  | [], _ => none
  | (k0, v) :: rest, k => if k0 = k then some v else dictGet rest k

/-- Python `k in d`. -/
def dictHas {α : Type} (d : List (String × α)) (k : String) : Bool :=
  (dictGet d k).isSome

/-- Python `d[k] = v`: overwrite in place if the key is present, else append
at the end (insertion-order semantics). -/
def dictInsert {α : Type} : List (String × α) → String → α → List (String × α)
  | [], k, v => [(k, v)]
  | (k0, v0) :: rest, k, v =>
    if k0 = k then (k, v) :: rest else (k0, v0) :: dictInsert rest k v

/-- Python `del d[k]` on a dict (no duplicate keys). -/
def dictDelete {α : Type} (d : List (String × α)) (k : String) :
    List (String × α) :=
  d.filter (fun p => p.1 ≠ k)

/-- The dict comprehension of `Chatbot.__init__`:
`{v["name"]: k for k, v in self.subscribers.items()}`. -/
def buildDisplayNames (subs : Registry) : List (String × String) :=
  subs.foldl (fun d p => dictInsert d p.2.name p.1) []

/-- A provider call made during an operation, in temporal order: a
LibreTranslate `translate_to` call or a Twilio `messages.create` call. -/
inductive Effect where
  | translateCall (text lang : String)
  | sendMsg (dst body : String) (media : List String)
deriving DecidableEq, Repr

/-- Data shared by all chatbots (`LangData`): supported language codes and
the localized message getters used by the bot. -/
structure LangData where
  codes : List String
  get_unfound_err : String → String
  get_test_example : String → String
  get_add_err : String → String
  get_add_phone_err : String → String
  get_exists_err : String → String
  get_add_name_err : String → String
  get_add_lang_err : String → String
  get_add_role_err : String → String
  get_add_success : String → String
  get_remove_err : String → String
  get_remove_self_err : String → String
  get_remove_super_err : String → String
  get_remove_success : String → String

/-- External collaborators: the language data, the LibreTranslate oracle
(`translate_to text lang`, raising = `Except.error (str e)`), and the
Fernet encryption of the store files, treated as an opaque function on the
serialized plaintext. -/
structure Env where
  langs : LangData
  oracle : String → String → Except String String
  enc : String → String

/-- Mutable state of a `Chatbot` instance relevant to the claims: the
subscriber registry, the reverse index, and the bytes of the primary and
backup store files. -/
structure BotState where
  subscribers : Registry
  display_names : List (String × String)
  primary : String
  backup : String
deriving DecidableEq, Repr

/-- `consts.VALID_ROLES`. -/
def validRoles : List String := ["user", "admin", "super"]

/-- The private-message marker `pm_char`. -/
def pm_char : String := "#"

/-- Model of `json.dumps(self.subscribers, indent=...)`: a serialization of
the registry in insertion order.  The exact byte format is irrelevant to
the claims; what matters is that persistence writes `enc (dumpRegistry r)`
to the primary file and copies those bytes verbatim to the backup. -/
def dumpRegistry (r : Registry) : String :=
  "\x7b" ++ String.intercalate ","
    (r.map (fun p =>
      p.1 ++ ":(" ++ p.2.name ++ "," ++ p.2.lang ++ "," ++ p.2.role ++ ")"))
    ++ "\x7d"

/-- The reply envelope of `Chatbot._reply`: wraps a message body in the
Twilio `MessagingResponse` TwiML document returned to the webhook. -/
def reply (msg_body : String) : String :=
  "<?xml version=\x221.0\x22 encoding=\x22UTF-8\x22?><Response><Message><Body>"
    ++ msg_body ++ "</Body></Message></Response>"

/-- The loop of `Chatbot._push`: walk the subscribers dict in order, skip
the sender, translate each recipient's language on cache miss (memoizing
in `translations`), return `str(e)` immediately on a translation failure,
and otherwise send the translated body to the recipient.  Returns the
effect log in temporal order together with the result string. -/
def pushLoop (env : Env) (text sender : String) (media : List String) :
    Registry → List (String × String) → List Effect × String
  | [], _ => ([], "")
  | (s, i) :: rest, cache =>
    if s = sender then pushLoop env text sender media rest cache
    else
      match dictGet cache i.lang with
      | some translated =>
        let p := pushLoop env text sender media rest cache
        (Effect.sendMsg s translated media :: p.1, p.2)
      | none =>
        match env.oracle text i.lang with
        | Except.error e => ([Effect.translateCall text i.lang], e)
        | Except.ok translated =>
          let p :=
            pushLoop env text sender media rest (dictInsert cache i.lang translated)
          (Effect.translateCall text i.lang
            :: Effect.sendMsg s translated media :: p.1, p.2)

/-- `Chatbot._push`: broadcast `text` to every subscriber except the
sender, starting from an empty translation cache. -/
def push (env : Env) (st : BotState) (text sender : String)
    (media : List String) : List Effect × String :=
  pushLoop env text sender media st.subscribers []

/-- `Chatbot._query`: send a private message to the named recipient.
`none` models an uncaught `KeyError` (reverse index pointing at a contact
absent from the registry). -/
def query (env : Env) (st : BotState) (msg sender sender_lang recipient : String)
    (media : List String) : Option (List Effect × String) :=
  if dictHas st.display_names recipient = false then
    some ([], env.langs.get_unfound_err sender_lang)
  else if msg = "" ∧ media.length = 0 then
    some ([], "")
  else
    match dictGet st.display_names recipient with
    | none => none
    | some recipient_contact =>
      match dictGet st.subscribers recipient_contact with
      | none => none
      | some rinfo =>
        let text := "Private message from " ++ sender ++ ":\n" ++ msg
        match env.oracle text rinfo.lang with
        | Except.error e => some ([Effect.translateCall text rinfo.lang], e)
        | Except.ok translated =>
          some ([Effect.translateCall text rinfo.lang,
                 Effect.sendMsg recipient_contact translated media], "")

/-- `Chatbot._test_translate`: translate the text after the language token
to that language, then back to the sender's own language.  `none` models
an uncaught `KeyError` on the sender lookup. -/
def test_translate (env : Env) (st : BotState) (msg sender : String) :
    Option (String × List Effect) :=
  match dictGet st.subscribers sender with
  | none => none
  | some info =>
    let sender_lang := info.lang
    match (pySplit msg).drop 1 with
    | [] => some (env.langs.get_test_example sender_lang, [])
    | l0 :: restTokens =>
      let l := pyLower l0
      if l ∈ env.langs.codes then
        let text := joinSp restTokens
        if text = "" then some (env.langs.get_test_example sender_lang, [])
        else
          match env.oracle text l with
          | Except.error e => some (e, [Effect.translateCall text l])
          | Except.ok translated =>
            match env.oracle translated sender_lang with
            | Except.error e =>
              some (e, [Effect.translateCall text l,
                        Effect.translateCall translated sender_lang])
            | Except.ok result =>
              some (result, [Effect.translateCall text l,
                             Effect.translateCall translated sender_lang])
      else some (env.langs.get_test_example sender_lang, [])

/-- `Chatbot._add_subscriber`: validate the 5-token `/add` command in the
source's order (token count, phone format, contact exists, name taken,
language, role), and on success insert the subscriber, update the reverse
index, and persist (primary overwritten, then copied to backup). -/
def add_subscriber (env : Env) (st : BotState) (msg sender_contact : String) :
    Option (String × BotState × List Effect) :=
  match dictGet st.subscribers sender_contact with
  | none => none
  | some sender =>
    let sender_lang := sender.lang
    let parts := pySplit msg
    if parts.length ≠ 5 then
      some (env.langs.get_add_err sender_lang, st, [])
    else
      let new_contact := parts.getD 1 ""
      let new_name := parts.getD 2 ""
      let new_lang := parts.getD 3 ""
      let new_role := parts.getD 4 ""
      if phoneOk new_contact = false then
        some (env.langs.get_add_phone_err sender_lang, st, [])
      else
        let new_contact_key := "whatsapp:" ++ new_contact
        if dictHas st.subscribers new_contact_key = true then
          some (env.langs.get_exists_err sender_lang, st, [])
        else if dictHas st.display_names new_name = true then
          some (env.langs.get_add_name_err sender_lang, st, [])
        else if new_lang ∉ env.langs.codes then
          some (env.langs.get_add_lang_err sender_lang, st, [])
        else if new_role ∉ validRoles then
          some (env.langs.get_add_role_err sender_lang, st, [])
        else
          let subs2 := dictInsert st.subscribers new_contact_key
            ⟨new_name, new_lang, new_role⟩
          let names2 := dictInsert st.display_names new_name new_contact_key
          let primary2 := env.enc (dumpRegistry subs2)
          some (env.langs.get_add_success sender_lang,
            { subscribers := subs2, display_names := names2,
              primary := primary2, backup := primary2 }, [])

/-- `Chatbot._remove_subscriber`: validate the 2-token `/remove` command in
the source's order (token count, self-removal, target exists, privilege),
and on success delete the subscriber and its reverse-index entry and
persist. -/
def remove_subscriber (env : Env) (st : BotState) (msg sender_contact : String) :
    Option (String × BotState × List Effect) :=
  match dictGet st.subscribers sender_contact with
  | none => none
  | some sender =>
    let sender_lang := sender.lang
    let sender_role := sender.role
    let parts := pySplit msg
    if parts.length ≠ 2 then
      some (env.langs.get_remove_err sender_lang, st, [])
    else
      let user_contact := parts.getD 1 ""
      let user_contact_key := "whatsapp:" ++ user_contact
      if sender_contact = user_contact then
        some (env.langs.get_remove_self_err sender_lang, st, [])
      else
        match dictGet st.subscribers user_contact_key with
        | none => some (env.langs.get_unfound_err sender_lang, st, [])
        | some target =>
          if sender_role = "admin" ∧ target.role = "super" then
            some (env.langs.get_remove_super_err sender_lang, st, [])
          else if dictHas st.display_names target.name = false then
            none
          else
            let names2 := dictDelete st.display_names target.name
            let subs2 := dictDelete st.subscribers user_contact_key
            let primary2 := env.enc (dumpRegistry subs2)
            some (env.langs.get_remove_success sender_lang,
              { subscribers := subs2, display_names := names2,
                primary := primary2, backup := primary2 }, [])

/-- The first word of the message, lowercased, as computed by
`process_msg`: `msg.split()[0].lower() if msg else ""`.  `none` models the
uncaught `IndexError` on a non-empty whitespace-only message. -/
def word1 (msg : String) : Option String :=
  if msg = "" then some "" else (pySplit msg).head?.map pyLower

/-- The non-private-message dispatch of `process_msg` (the `else` branch
of the marker test at line 470, lines 481-514 of the source): role-gated
slash commands and the plain broadcast.  By construction this definition
contains no call to `query` (the private-message router): a message
handled here is not routed to the private-message path. -/
def role_dispatch (env : Env) (st : BotState) (msg sender_contact : String)
    (media : List String) (sender : SubscriberInfo) (w : String) :
    Option (String × BotState × List Effect) :=
  if sender.role = "user" then
    if w = "/test" then
      (test_translate env st msg sender_contact).map
        (fun q => (reply q.1, st, q.2))
    else if pyTake1 w = "/" ∧ pyLen w > 1 then
      some ("", st, [])
    else
      let text := sender.name ++ " says:\n" ++ msg
      let p := push env st text sender_contact media
      some ("", st, p.1)
  else
    if w = "/test" then
      (test_translate env st msg sender_contact).map
        (fun q => (reply q.1, st, q.2))
    else if w = "/add" then
      (add_subscriber env st msg sender_contact).map
        (fun q => (reply q.1, q.2.1, q.2.2))
    else if w = "/remove" then
      (remove_subscriber env st msg sender_contact).map
        (fun q => (reply q.1, q.2.1, q.2.2))
    else if w = "/list" then
      some (reply ("List of subscribers:\n" ++ dumpRegistry st.subscribers),
        st, [])
    else if pyTake1 w = "/" ∧ pyLen w > 1 then
      some ("", st, [])
    else
      let text := sender.name ++ " says:\n" ++ msg
      let p := push env st text sender_contact media
      some (p.2, st, p.1)

/-- `Chatbot.process_msg`: look up the sender (unknown senders are ignored
with an empty reply), then classify the message: private message routed
to `query`, or everything else via `role_dispatch`.  Returns the reply
string, the resulting bot state, and the provider-call log. -/
def process_msg (env : Env) (st : BotState) (msg sender_contact : String)
    (media : List String) : Option (String × BotState × List Effect) :=
  match dictGet st.subscribers sender_contact with
  | none => some ("", st, [])
  | some sender =>
    if msg = "" ∧ media.length = 0 then some ("", st, [])
    else
      match word1 msg with
      | none => none
      | some w =>
        if pyTake1 w = pm_char then
          match pySplit msg with
          | [] => none
          | t0 :: rest =>
            (query env st (joinSp rest) sender.name sender.lang
              (pyDropFirst t0) media).map (fun q => (reply q.2, st, q.1))
        else role_dispatch env st msg sender_contact media sender w

/-- The subscriber-load logic of `Chatbot.__init__` (lines 132-148):
decrypt-and-parse the primary store file; on any failure, decrypt-and-parse
the backup with the same key; a backup failure propagates (the process
cannot start), modelled as `none`.  `dec` is decrypt-then-`json.loads`
with the key read from the key file. -/
def loadSubscribers (dec : String → Option Registry)
    (primaryBytes backupBytes : String) : Option Registry :=
  match dec primaryBytes with
  | some subs => some subs
  | none => dec backupBytes

/-- Construction of the registry-related state in `Chatbot.__init__`:
load the subscribers, then derive `display_names`. -/
def chatbot_init (dec : String → Option Registry)
    (primaryBytes backupBytes : String) : Option BotState :=
  (loadSubscribers dec primaryBytes backupBytes).map fun subs =>
    { subscribers := subs, display_names := buildDisplayNames subs,
      primary := primaryBytes, backup := backupBytes }

/-! Concrete fixtures used by witnesses and counterexamples. -/

/-- A concrete `LangData` with two supported codes and pairwise-distinct
localized messages. -/
def langsC : LangData where
  codes := ["en", "es"]
  get_unfound_err := fun l => "UNFOUND " ++ l
  get_test_example := fun l => "TESTEX " ++ l
  get_add_err := fun l => "ADDUSAGE " ++ l
  get_add_phone_err := fun l => "ADDPHONE " ++ l
  get_exists_err := fun l => "ADDEXISTS " ++ l
  get_add_name_err := fun l => "ADDNAME " ++ l
  get_add_lang_err := fun l => "ADDLANG " ++ l
  get_add_role_err := fun l => "ADDROLE " ++ l
  get_add_success := fun l => "ADDOK " ++ l
  get_remove_err := fun l => "RMUSAGE " ++ l
  get_remove_self_err := fun l => "RMSELF " ++ l
  get_remove_super_err := fun l => "RMSUPER " ++ l
  get_remove_success := fun l => "RMOK " ++ l

/-- A translation oracle that always succeeds. -/
def oracleOk : String → String → Except String String :=
  fun text lang => Except.ok ("[" ++ lang ++ "]" ++ text)

/-- Environment with a working translation provider. -/
def envC : Env where
  langs := langsC
  oracle := oracleOk
  enc := fun s => "ENC " ++ s

/-- Environment whose translation provider always fails with message
`BOOM` (a timeout or HTTP error in the Python source). -/
def envBad : Env where
  langs := langsC
  oracle := fun _ _ => Except.error "BOOM"
  enc := fun s => "ENC " ++ s

def aliceKey : String := "whatsapp:+15551234567"

def bobKey : String := "whatsapp:+15550000001"

def aliceInfo : SubscriberInfo := ⟨"Alice", "en", "admin"⟩

def bobInfo : SubscriberInfo := ⟨"Bob", "es", "user"⟩

/-- A two-subscriber registry: Alice (admin, en) and Bob (user, es). -/
def subsC : Registry := [(aliceKey, aliceInfo), (bobKey, bobInfo)]

/-- Bot state over `subsC` with its derived reverse index. -/
def stC : BotState where
  subscribers := subsC
  display_names := buildDisplayNames subsC
  primary := "P0"
  backup := "B0"

def carolKey : String := "whatsapp:+15550000002"

def carolInfo : SubscriberInfo := ⟨"Carol", "es", "user"⟩

/-- A three-subscriber registry in which Bob and Carol share language
`es`. -/
def subsMulti : Registry := [(aliceKey, aliceInfo), (bobKey, bobInfo),
  (carolKey, carolInfo)]

/-- Bot state over `subsMulti`. -/
def stMulti : BotState where
  subscribers := subsMulti
  display_names := buildDisplayNames subsMulti
  primary := "P2"
  backup := "B2"

/-! Derived observations on effect logs and registries. -/

/-- The recipients of the messaging-provider sends in an effect log, in
order. -/
def sentTo : List Effect → List String
  | [] => []
  | Effect.sendMsg dst _ _ :: rest => dst :: sentTo rest
  | Effect.translateCall _ _ :: rest => sentTo rest

/-- How many translation-provider calls an effect log contains for the
target language `l`. -/
def transCallsFor : List Effect → String → Nat
  | [], _ => 0
  | Effect.translateCall _ lg :: rest, l =>
    (if lg = l then 1 else 0) + transCallsFor rest l
  | Effect.sendMsg _ _ _ :: rest, l => transCallsFor rest l

/-- The subscribers other than the sender, in registry order: the
recipients of a broadcast. -/
def others : Registry → String → Registry
  | [], _ => []
  | (s, i) :: rest, sender =>
    if s = sender then others rest sender else (s, i) :: others rest sender

/-- All subscriber display names are pairwise distinct. -/
def distinctNames (subs : Registry) : Prop :=
  (subs.map (fun p => p.2.name)).Nodup

/-- All subscriber contact keys are pairwise distinct (a dict cannot have
duplicate keys). -/
def distinctKeys (subs : Registry) : Prop :=
  (subs.map Prod.fst).Nodup

/-- The reverse index is exactly the inverse of the forward map's `name`
field: one entry `(name, contact)` per subscriber, in registry order. -/
def isInverse (subs : Registry) (names : List (String × String)) : Prop :=
  names = subs.map (fun p => (p.2.name, p.1))

/-! Association-list lemmas. -/

theorem dictGet_insert {α : Type} (c : List (String × α)) (k q : String) (v : α) :
    dictGet (dictInsert c k v) q = if k = q then some v else dictGet c q := by
  induction c with
  | nil => rfl
  | cons hd tl ih =>
    obtain ⟨k0, v0⟩ := hd
    by_cases h0 : k0 = k
    · subst h0
      by_cases hq : k0 = q <;> simp [dictInsert, dictGet, hq]
    · by_cases hq : k0 = q
      · subst hq
        have hkq : ¬ k = k0 := fun h => h0 h.symm
        simp [dictInsert, dictGet, h0, hkq]
      · simp [dictInsert, dictGet, h0, hq, ih]

theorem dictHas_cons_elim {α : Type} {k0 : String} {v0 : α}
    {rest : List (String × α)} {k : String}
    (h : dictHas ((k0, v0) :: rest) k = false) :
    k0 ≠ k ∧ dictHas rest k = false := by
  by_cases h0 : k0 = k
  · exact absurd h (by simp [dictHas, dictGet, h0])
  · exact ⟨h0, by simpa [dictHas, dictGet, h0] using h⟩

theorem dictInsert_append {α : Type} (d : List (String × α)) (k : String)
    (v : α) (h : dictHas d k = false) : dictInsert d k v = d ++ [(k, v)] := by
  induction d with
  | nil => rfl
  | cons hd tl ih =>
    obtain ⟨k0, v0⟩ := hd
    obtain ⟨hne, hrest⟩ := dictHas_cons_elim h
    simp [dictInsert, hne, ih hrest]

theorem dictGet_append {α : Type} (d1 d2 : List (String × α)) (k : String) :
    dictGet (d1 ++ d2) k
      = match dictGet d1 k with
        | some v => some v
        | none => dictGet d2 k := by
  induction d1 with
  | nil => rfl
  | cons hd tl ih =>
    obtain ⟨k0, v0⟩ := hd
    by_cases h0 : k0 = k <;> simp [dictGet, h0, ih]

theorem mem_of_dictGet {α : Type} {d : List (String × α)} {k : String}
    {v : α} (h : dictGet d k = some v) : (k, v) ∈ d := by
  induction d with
  | nil => simp [dictGet] at h
  | cons hd tl ih =>
    obtain ⟨k0, v0⟩ := hd
    by_cases h0 : k0 = k
    · subst h0
      rw [show dictGet ((k0, v0) :: tl) k0 = some v0 by simp [dictGet]] at h
      injection h with h
      subst h
      exact List.mem_cons_self _ _
    · simp only [dictGet, if_neg h0] at h
      exact List.mem_cons_of_mem _ (ih h)

theorem filter_map_comm {α β : Type} (f : α → β) (p : β → Bool) (l : List α) :
    (l.map f).filter p = (l.filter (fun a => p (f a))).map f := by
  induction l with
  | nil => rfl
  | cons a t ih =>
    by_cases h : p (f a) = true
    · simp [List.filter_cons, h, ih]
    · simp [List.filter_cons, h, ih]

theorem buildDisplayNames_loop (subs : Registry) :
    ∀ acc : List (String × String),
    (subs.map (fun p => p.2.name)).Nodup →
    (∀ p ∈ subs, dictHas acc p.2.name = false) →
    subs.foldl (fun d p => dictInsert d p.2.name p.1) acc
      = acc ++ subs.map (fun p => (p.2.name, p.1)) := by
  induction subs with
  | nil => intro acc _ _; simp
  | cons hd rest ih =>
    intro acc hnd hfresh
    rw [List.map_cons] at hnd
    have hndc := List.nodup_cons.mp hnd
    have hne : ∀ p ∈ rest, hd.2.name ≠ p.2.name := by
      intro p hp heq
      exact hndc.1 (heq ▸ List.mem_map_of_mem (fun q => q.2.name) hp)
    have hfresh2 : ∀ p ∈ rest,
        dictHas (acc ++ [(hd.2.name, hd.1)]) p.2.name = false := by
      intro p hp
      have h1 := hfresh p (List.mem_cons_of_mem _ hp)
      unfold dictHas at h1 ⊢
      rw [dictGet_append]
      cases hg : dictGet acc p.2.name with
      | some v => rw [hg] at h1; exact absurd h1 (by simp)
      | none => simp [dictGet, hne p hp]
    rw [List.foldl_cons,
      dictInsert_append acc hd.2.name hd.1 (hfresh hd (List.mem_cons_self _ _)),
      ih (acc ++ [(hd.2.name, hd.1)]) hndc.2 hfresh2]
    simp

/-- With pairwise-distinct subscriber names, the dict comprehension of
`__init__` produces exactly the inverse of the forward map. -/
theorem buildDisplayNames_eq (subs : Registry) (h : distinctNames subs) :
    buildDisplayNames subs = subs.map (fun p => (p.2.name, p.1)) := by
  have hl := buildDisplayNames_loop subs [] h (fun p _ => rfl)
  simpa [buildDisplayNames] using hl

/-! Lemmas about the broadcast loop. -/

/-- If the broadcast loop returns a non-empty string, the recipient list
splits at a failing recipient: exactly the recipients strictly before it
received a send, the translation oracle failed on the failing recipient's
language with exactly the returned message, and nobody from the failing
recipient on received anything. -/
theorem pushLoop_abort (env : Env) (text sender : String)
    (media : List String) :
    ∀ (subs : Registry) (cache : List (String × String)),
    (pushLoop env text sender media subs cache).2 ≠ "" →
    ∃ pre x post, others subs sender = pre ++ x :: post
      ∧ sentTo (pushLoop env text sender media subs cache).1 = pre.map Prod.fst
      ∧ env.oracle text x.2.lang
          = Except.error (pushLoop env text sender media subs cache).2 := by
  intro subs
  induction subs with
  | nil => intro cache h; exact absurd rfl h
  | cons hd rest ih =>
    obtain ⟨s, i⟩ := hd
    intro cache h
    by_cases hs : s = sender
    · rw [show pushLoop env text sender media ((s, i) :: rest) cache
          = pushLoop env text sender media rest cache by
            simp [pushLoop, hs]] at h ⊢
      obtain ⟨pre, x, post, h1, h2, h3⟩ := ih cache h
      exact ⟨pre, x, post, by simp [others, hs, h1], h2, h3⟩
    · cases hc : dictGet cache i.lang with
      | some tr =>
        rw [show pushLoop env text sender media ((s, i) :: rest) cache
            = (Effect.sendMsg s tr media
                :: (pushLoop env text sender media rest cache).1,
               (pushLoop env text sender media rest cache).2) by
              simp [pushLoop, hs, hc]] at h ⊢
        obtain ⟨pre, x, post, h1, h2, h3⟩ := ih cache h
        exact ⟨(s, i) :: pre, x, post, by simp [others, hs, h1],
          by simp [sentTo, h2], h3⟩
      | none =>
        cases ho : env.oracle text i.lang with
        | error e =>
          rw [show pushLoop env text sender media ((s, i) :: rest) cache
              = ([Effect.translateCall text i.lang], e) by
                simp [pushLoop, hs, hc, ho]] at h ⊢
          exact ⟨[], (s, i), others rest sender, by simp [others, hs],
            by simp [sentTo], ho⟩
        | ok tr =>
          rw [show pushLoop env text sender media ((s, i) :: rest) cache
              = (Effect.translateCall text i.lang :: Effect.sendMsg s tr media
                  :: (pushLoop env text sender media rest
                        (dictInsert cache i.lang tr)).1,
                 (pushLoop env text sender media rest
                    (dictInsert cache i.lang tr)).2) by
                simp [pushLoop, hs, hc, ho]] at h ⊢
          obtain ⟨pre, x, post, h1, h2, h3⟩ := ih (dictInsert cache i.lang tr) h
          exact ⟨(s, i) :: pre, x, post, by simp [others, hs, h1],
            by simp [sentTo, h2], h3⟩

/-- If the translation oracle succeeds on every recipient language of the
broadcast, the loop calls the translation provider exactly once for each
language not already in the cache that some recipient has, and never for
any other language. -/
theorem pushLoop_count (env : Env) (text sender : String)
    (media : List String) (l : String) :
    ∀ (subs : Registry) (cache : List (String × String)),
    (∀ p ∈ subs, p.1 ≠ sender → ∃ v, env.oracle text p.2.lang = Except.ok v) →
    transCallsFor (pushLoop env text sender media subs cache).1 l
      = if (∃ p ∈ others subs sender, p.2.lang = l) ∧ dictGet cache l = none
        then 1 else 0 := by
  intro subs
  induction subs with
  | nil => intro cache hok; simp [pushLoop, others, transCallsFor]
  | cons hd rest ih =>
    obtain ⟨s, i⟩ := hd
    intro cache hok
    have hokRest : ∀ p ∈ rest, p.1 ≠ sender →
        ∃ v, env.oracle text p.2.lang = Except.ok v :=
      fun p hp => hok p (List.mem_cons_of_mem _ hp)
    by_cases hs : s = sender
    · rw [show pushLoop env text sender media ((s, i) :: rest) cache
          = pushLoop env text sender media rest cache by
            simp [pushLoop, hs]]
      rw [show others ((s, i) :: rest) sender = others rest sender by
        simp [others, hs]]
      exact ih cache hokRest
    · cases hc : dictGet cache i.lang with
      | some tr =>
        rw [show pushLoop env text sender media ((s, i) :: rest) cache
            = (Effect.sendMsg s tr media
                :: (pushLoop env text sender media rest cache).1,
               (pushLoop env text sender media rest cache).2) by
              simp [pushLoop, hs, hc]]
        simp only [transCallsFor]
        rw [ih cache hokRest]
        by_cases hl : i.lang = l
        · subst hl
          simp [others, hs, hc]
        · simp only [others, if_neg hs]
          by_cases hrest : (∃ p ∈ others rest sender, p.2.lang = l)
              ∧ dictGet cache l = none
          · rw [if_pos hrest, if_pos ⟨⟨hrest.1.choose,
              List.mem_cons_of_mem _ hrest.1.choose_spec.1,
              hrest.1.choose_spec.2⟩, hrest.2⟩]
          · rw [if_neg hrest, if_neg ?_]
            intro ⟨⟨p, hp, hpl⟩, hcl⟩
            rcases List.mem_cons.mp hp with hph | hpt
            · exact hl (by rw [hph] at hpl; exact hpl)
            · exact hrest ⟨⟨p, hpt, hpl⟩, hcl⟩
      | none =>
        obtain ⟨tr, ho⟩ := hok (s, i) (List.mem_cons_self _ _) hs
        rw [show pushLoop env text sender media ((s, i) :: rest) cache
            = (Effect.translateCall text i.lang :: Effect.sendMsg s tr media
                :: (pushLoop env text sender media rest
                      (dictInsert cache i.lang tr)).1,
               (pushLoop env text sender media rest
                  (dictInsert cache i.lang tr)).2) by
              simp [pushLoop, hs, hc, ho]]
        simp only [transCallsFor]
        rw [ih (dictInsert cache i.lang tr) hokRest]
        by_cases hl : i.lang = l
        · subst hl
          rw [if_pos rfl]
          rw [if_neg ?_, if_pos ⟨⟨(s, i), by simp [others, hs], rfl⟩, hc⟩]
          intro ⟨_, hcl⟩
          rw [dictGet_insert, if_pos rfl] at hcl
          exact Option.noConfusion hcl
        · rw [if_neg hl]
          have hget : dictGet (dictInsert cache i.lang tr) l = dictGet cache l := by
            rw [dictGet_insert, if_neg hl]
          rw [hget]
          simp only [others, if_neg hs]
          by_cases hrest : (∃ p ∈ others rest sender, p.2.lang = l)
              ∧ dictGet cache l = none
          · rw [if_pos hrest, if_pos ⟨⟨hrest.1.choose,
              List.mem_cons_of_mem _ hrest.1.choose_spec.1,
              hrest.1.choose_spec.2⟩, hrest.2⟩]
          · rw [if_neg hrest, if_neg ?_]
            intro ⟨⟨p, hp, hpl⟩, hcl⟩
            rcases List.mem_cons.mp hp with hph | hpt
            · exact hl (by rw [hph] at hpl; exact hpl)
            · exact hrest ⟨⟨p, hpt, hpl⟩, hcl⟩

/-- If the translation oracle succeeds on every recipient language, every
recipient (each subscriber other than the sender, in order) receives
exactly one send. -/
theorem pushLoop_sends (env : Env) (text sender : String)
    (media : List String) :
    ∀ (subs : Registry) (cache : List (String × String)),
    (∀ p ∈ subs, p.1 ≠ sender → ∃ v, env.oracle text p.2.lang = Except.ok v) →
    sentTo (pushLoop env text sender media subs cache).1
      = (others subs sender).map Prod.fst := by
  intro subs
  induction subs with
  | nil => intro cache hok; simp [pushLoop, others, sentTo]
  | cons hd rest ih =>
    obtain ⟨s, i⟩ := hd
    intro cache hok
    have hokRest : ∀ p ∈ rest, p.1 ≠ sender →
        ∃ v, env.oracle text p.2.lang = Except.ok v :=
      fun p hp => hok p (List.mem_cons_of_mem _ hp)
    by_cases hs : s = sender
    · rw [show pushLoop env text sender media ((s, i) :: rest) cache
          = pushLoop env text sender media rest cache by
            simp [pushLoop, hs]]
      rw [ih cache hokRest]
      simp [others, hs]
    · cases hc : dictGet cache i.lang with
      | some tr =>
        rw [show pushLoop env text sender media ((s, i) :: rest) cache
            = (Effect.sendMsg s tr media
                :: (pushLoop env text sender media rest cache).1,
               (pushLoop env text sender media rest cache).2) by
              simp [pushLoop, hs, hc]]
        simp [sentTo, others, hs, ih cache hokRest]
      | none =>
        obtain ⟨tr, ho⟩ := hok (s, i) (List.mem_cons_self _ _) hs
        rw [show pushLoop env text sender media ((s, i) :: rest) cache
            = (Effect.translateCall text i.lang :: Effect.sendMsg s tr media
                :: (pushLoop env text sender media rest
                      (dictInsert cache i.lang tr)).1,
               (pushLoop env text sender media rest
                  (dictInsert cache i.lang tr)).2) by
              simp [pushLoop, hs, hc, ho]]
        simp [sentTo, others, hs, ih (dictInsert cache i.lang tr) hokRest]

/-- Dispatch of `process_msg` on a message whose first token begins with
the private-message marker: the private-message result is computed by
`query` on the token minus the marker and the remainder of the message,
and is always wrapped in the reply envelope. -/
theorem process_pm (env : Env) (st : BotState) (msg sender_contact : String)
    (media : List String) (info : SubscriberInfo) (t : String)
    (rest : List String)
    (hs : dictGet st.subscribers sender_contact = some info)
    (hsplit : pySplit msg = t :: rest)
    (hpm : pyTake1 (pyLower t) = pm_char) :
    process_msg env st msg sender_contact media
      = (query env st (joinSp rest) info.name info.lang
          (pyDropFirst t) media).map (fun q => (reply q.2, st, q.1)) := by
  have hmsg : ¬ msg = "" := by
    intro h
    rw [h] at hsplit
    exact List.noConfusion hsplit
  have hw : word1 msg = some (pyLower t) := by
    unfold word1
    rw [if_neg hmsg, hsplit]
    rfl
  have hcond : ¬ (msg = "" ∧ media.length = 0) := fun hc => hmsg hc.1
  unfold process_msg
  rw [hs]
  simp only [if_neg hcond, hw]
  rw [if_pos hpm, hsplit]

/-- Dispatch of `process_msg` on plain text from a subscribed sender: no
private-message marker, no recognized command, no slash token.  A
user-role sender's push result is discarded (`""` returned); any other
role gets the push result back directly. -/
theorem process_plain (env : Env) (st : BotState) (msg sender_contact : String)
    (media : List String) (info : SubscriberInfo) (w : String)
    (hs : dictGet st.subscribers sender_contact = some info)
    (hne : ¬ (msg = "" ∧ media.length = 0))
    (hw : word1 msg = some w)
    (hpm : ¬ pyTake1 w = pm_char)
    (h1 : ¬ w = "/test") (h2 : ¬ w = "/add") (h3 : ¬ w = "/remove")
    (h4 : ¬ w = "/list")
    (h5 : ¬ (pyTake1 w = "/" ∧ pyLen w > 1)) :
    process_msg env st msg sender_contact media
      = some ((if info.role = "user" then ""
               else (push env st (info.name ++ " says:\n" ++ msg)
                      sender_contact media).2),
              st,
              (push env st (info.name ++ " says:\n" ++ msg)
                 sender_contact media).1) := by
  unfold process_msg
  rw [hs]
  simp only [if_neg hne, hw]
  rw [if_neg hpm]
  unfold role_dispatch
  by_cases hrole : info.role = "user"
  · rw [if_pos hrole, if_neg h1, if_neg h5, if_pos hrole]
  · rw [if_neg hrole, if_neg h1, if_neg h2, if_neg h3, if_neg h4, if_neg h5,
      if_neg hrole]

/-! Claim theorems. -/

/-- C8: at startup, if decrypting or parsing the primary store file fails
for any reason, the registry is loaded from the backup file decrypted with
the same key (`dec`) and equals exactly the backup's contents; in
particular, if the backup also fails the load is fatal (`none`), and no
partial or merged recovery happens, since the result is exactly what the
backup decrypts and parses to. -/
theorem load_fallback (dec : String → Option Registry)
    (primaryBytes backupBytes : String) (h : dec primaryBytes = none) :
    loadSubscribers dec primaryBytes backupBytes = dec backupBytes := by
  unfold loadSubscribers
  rw [h]

/-- Witness for C8: a concrete decryptor that fails on the primary bytes
and recovers the two-subscriber registry from the backup bytes. -/
theorem load_fallback_witness :
    loadSubscribers (fun s => if s = "BK" then some subsC else none) "PR" "BK"
      = some subsC := by
  have h := load_fallback (fun s => if s = "BK" then some subsC else none)
    "PR" "BK" (by decide)
  simpa using h

/-- C9: a message from a contact absent from the subscriber registry makes
`process_msg` return the empty string, with no translation- or
messaging-provider calls and no change to the registry, the reverse index,
or the store files, regardless of message text or media. -/
theorem unsubscribed_ignored (env : Env) (st : BotState)
    (msg sender_contact : String) (media : List String)
    (h : dictGet st.subscribers sender_contact = none) :
    process_msg env st msg sender_contact media = some ("", st, []) := by
  unfold process_msg
  rw [h]

/-- Witness for C9: an unknown contact sending a slash command with media
is silently ignored. -/
theorem unsubscribed_ignored_witness :
    process_msg envC stC "/add +1 X en user" "whatsapp:+19999999999" ["m1"]
      = some ("", stC, []) :=
  unsubscribed_ignored envC stC "/add +1 X en user" "whatsapp:+19999999999"
    ["m1"] (by decide)

/-- C1 (amended): for a plain-text broadcast from a subscribed sender, if
the translation collaborator fails with a (non-empty) error string, the
broadcast aborts immediately — exactly the recipients strictly before the
failing one received a send, and the failing recipient and everyone after
it receive nothing — and the failure message is the push result; that
result is returned to the sender only when the sender's role is not
`user`: a user-role sender's failure is discarded and `""` returned. -/
theorem broadcast_failure_aborts (env : Env) (st : BotState)
    (msg sender_contact : String) (media : List String)
    (info : SubscriberInfo) (w : String)
    (hs : dictGet st.subscribers sender_contact = some info)
    (hne : ¬ (msg = "" ∧ media.length = 0))
    (hw : word1 msg = some w)
    (hpm : ¬ pyTake1 w = pm_char)
    (h1 : ¬ w = "/test") (h2 : ¬ w = "/add") (h3 : ¬ w = "/remove")
    (h4 : ¬ w = "/list")
    (h5 : ¬ (pyTake1 w = "/" ∧ pyLen w > 1))
    (hfail : (push env st (info.name ++ " says:\n" ++ msg)
        sender_contact media).2 ≠ "") :
    process_msg env st msg sender_contact media
      = some ((if info.role = "user" then ""
               else (push env st (info.name ++ " says:\n" ++ msg)
                      sender_contact media).2),
              st,
              (push env st (info.name ++ " says:\n" ++ msg)
                 sender_contact media).1)
    ∧ ∃ pre x post, others st.subscribers sender_contact = pre ++ x :: post
        ∧ sentTo (push env st (info.name ++ " says:\n" ++ msg)
            sender_contact media).1 = pre.map Prod.fst
        ∧ env.oracle (info.name ++ " says:\n" ++ msg) x.2.lang
            = Except.error ((push env st (info.name ++ " says:\n" ++ msg)
                sender_contact media).2) := by
  refine ⟨process_plain env st msg sender_contact media info w hs hne hw hpm
    h1 h2 h3 h4 h5, ?_⟩
  have h := pushLoop_abort env (info.name ++ " says:\n" ++ msg) sender_contact
    media st.subscribers [] (by simpa [push] using hfail)
  simpa [push] using h

/-- Witness for C1: an admin-role sender's broadcast with a failing
translation provider returns the provider's error message, and the lone
recipient got nothing. -/
theorem broadcast_failure_aborts_witness :
    process_msg envBad stC "hi" aliceKey []
      = some ("BOOM", stC, [Effect.translateCall "Alice says:\nhi" "es"]) := by
  have h := (broadcast_failure_aborts envBad stC "hi" aliceKey [] aliceInfo
    "hi" (by decide) (by decide) (by decide) (by decide) (by decide)
    (by decide) (by decide) (by decide) (by decide) (by decide)).1
  exact h.trans (by decide)

/-- Counterexample to C1 as stated: for a user-role sender the failure
message is NOT returned as the operation's result — the translation
provider fails with `BOOM`, yet `process_msg` returns `""` to the
sender. -/
theorem broadcast_failure_user_counterexample :
    process_msg envBad stC "hi" bobKey []
      = some ("", stC, [Effect.translateCall "Bob says:\nhi" "en"])
    ∧ envBad.oracle "Bob says:\nhi" "en" = Except.error "BOOM"
    ∧ ("" : String) ≠ "BOOM" :=
  ⟨by decide, rfl, by decide⟩

/-- C7: in a broadcast in which the translation provider succeeds on every
recipient language, a language shared by one or more recipients is
translated exactly once — the memoized result being reused, every
recipient (each subscriber other than the sender, in order) still receives
its send. -/
theorem translate_once_per_language (env : Env) (st : BotState)
    (text sender : String) (media : List String) (l : String)
    (hok : ∀ p ∈ st.subscribers, p.1 ≠ sender →
      ∃ v, env.oracle text p.2.lang = Except.ok v)
    (hl : ∃ p ∈ others st.subscribers sender, p.2.lang = l) :
    transCallsFor (push env st text sender media).1 l = 1
    ∧ sentTo (push env st text sender media).1
        = (others st.subscribers sender).map Prod.fst := by
  constructor
  · have h := pushLoop_count env text sender media l st.subscribers [] hok
    simp only [push]
    rw [h, if_pos ⟨hl, rfl⟩]
  · have h := pushLoop_sends env text sender media st.subscribers [] hok
    simpa [push] using h

/-- Witness for C7: broadcasting to Bob and Carol, who share language
`es`, translates to `es` exactly once while both receive sends. -/
theorem translate_once_witness :
    transCallsFor (push envC stMulti "hey all" aliceKey []).1 "es" = 1
    ∧ sentTo (push envC stMulti "hey all" aliceKey []).1
        = [bobKey, carolKey] := by
  have h := translate_once_per_language envC stMulti "hey all" aliceKey []
    "es" (fun p _ _ => ⟨_, rfl⟩) ⟨(bobKey, bobInfo), by decide, rfl⟩
  exact ⟨h.1, h.2.trans (by decide)⟩

/-- C2 (amended): a non-empty message from a subscribed sender is routed
to the private-message path exactly when its first whitespace-delimited
token begins with the private-message marker — with no requirement that
the token be strictly longer than the marker.  When it is, the recipient
display name is the first token minus the marker (original case, possibly
empty), the body is the remainder of the message, and the result of the
attempt, success or error, is always returned to the sender wrapped in
the reply envelope; when it is not, the message is handled entirely by
`role_dispatch`, which by construction contains no private-message
routing. -/
theorem pm_routing (env : Env) (st : BotState) (msg sender_contact : String)
    (media : List String) (info : SubscriberInfo) (t : String)
    (rest : List String)
    (hs : dictGet st.subscribers sender_contact = some info)
    (hsplit : pySplit msg = t :: rest) :
    (pyTake1 (pyLower t) = pm_char →
      process_msg env st msg sender_contact media
        = (query env st (joinSp rest) info.name info.lang
            (pyDropFirst t) media).map (fun q => (reply q.2, st, q.1)))
    ∧ (¬ pyTake1 (pyLower t) = pm_char →
      process_msg env st msg sender_contact media
        = role_dispatch env st msg sender_contact media info (pyLower t)) := by
  constructor
  · intro hpm
    exact process_pm env st msg sender_contact media info t rest hs hsplit hpm
  · intro hpm
    have hmsg : ¬ msg = "" := by
      intro h
      rw [h] at hsplit
      exact List.noConfusion hsplit
    have hw : word1 msg = some (pyLower t) := by
      unfold word1
      rw [if_neg hmsg, hsplit]
      rfl
    have hcond : ¬ (msg = "" ∧ media.length = 0) := fun hc => hmsg hc.1
    unfold process_msg
    rw [hs]
    simp only [if_neg hcond, hw]
    rw [if_neg hpm]

/-- Witness for C2, both directions: a marker-initial message from Bob is
routed to the query path and its (successful) result comes back in the
reply envelope, while a plain message from Bob is handled by the
non-private-message dispatch (here a broadcast to Alice with an empty
reply). -/
theorem pm_routing_witness :
    process_msg envC stC "#Alice hey" bobKey []
      = some (reply "", stC,
          [Effect.translateCall "Private message from Bob:\nhey" "en",
           Effect.sendMsg aliceKey "[en]Private message from Bob:\nhey" []])
    ∧ process_msg envC stC "hi" bobKey []
        = some ("", stC,
            [Effect.translateCall "Bob says:\nhi" "en",
             Effect.sendMsg aliceKey "[en]Bob says:\nhi" []]) := by
  constructor
  · have h := (pm_routing envC stC "#Alice hey" bobKey [] bobInfo "#Alice"
      ["hey"] (by decide) (by decide)).1 (by decide)
    exact h.trans (by decide)
  · have h := (pm_routing envC stC "hi" bobKey [] bobInfo "hi" []
      (by decide) (by decide)).2 (by decide)
    exact h.trans (by decide)

/-- Counterexample to C2 as stated: the message `"#"`, whose first token
is exactly the marker and hence NOT strictly longer than it, is still
routed to the private-message path (the sender gets the recipient-not-
found error for the empty display name, wrapped in the reply envelope)
instead of being treated as a plain broadcast. -/
theorem pm_marker_only_counterexample :
    pySplit "#" = ["#"]
    ∧ pyLen "#" = pyLen pm_char
    ∧ process_msg envC stC "#" bobKey []
        = some (reply (langsC.get_unfound_err "es"), stC, [])
    ∧ some (reply (langsC.get_unfound_err "es"), stC, ([] : List Effect))
        ≠ some ("", stC, [Effect.translateCall "Bob says:\n#" "en",
            Effect.sendMsg aliceKey "[en]Bob says:\n#" []]) :=
  ⟨by decide, by decide, by decide, by decide⟩

/-- C3: the self-removal guard of `_remove_subscriber` never fires for a
2-token `/remove` whose argument names the sender's own contact, because
it compares the raw argument (`+15551234567`) with the sender's stored
key (`whatsapp:+15551234567`).  Evaluating the code at the failing input:
the admin Alice removes herself, the operation returns the removal
success message (not the self-removal error), and the registry, reverse
index and store files all change. -/
theorem remove_self_not_prevented :
    ("whatsapp:" ++ "+15551234567" : String) = aliceKey
    ∧ remove_subscriber envC stC "/remove +15551234567" aliceKey
        = some (langsC.get_remove_success "en",
            { subscribers := [(bobKey, bobInfo)],
              display_names := [("Bob", bobKey)],
              primary := envC.enc (dumpRegistry [(bobKey, bobInfo)]),
              backup := envC.enc (dumpRegistry [(bobKey, bobInfo)]) }, [])
    ∧ langsC.get_remove_success "en" ≠ langsC.get_remove_self_err "en"
    ∧ dictGet ([(bobKey, bobInfo)] : Registry) aliceKey = none :=
  ⟨by decide, by decide, by decide, by decide⟩

/-- A registry whose second key wraps a contact that does not pass the
phone-format check (registry keys are opaque strings; such a key can come
from the store file). -/
def subsAbc : Registry := [(aliceKey, aliceInfo),
  ("whatsapp:abc", ⟨"Mallory", "en", "user"⟩)]

/-- Bot state over `subsAbc`. -/
def stAbc : BotState where
  subscribers := subsAbc
  display_names := buildDisplayNames subsAbc
  primary := "P3"
  backup := "B3"

/-- C4 (amended): a 5-token `/add` command whose contact argument passes
the phone-format check and, after provider-address wrapping, is already a
key of the registry always returns the "already exists" error and leaves
the in-memory registry, the reverse index, and the bytes of both store
files unchanged. -/
theorem add_existing_rejected (env : Env) (st : BotState)
    (msg sender_contact : String) (info : SubscriberInfo)
    (hs : dictGet st.subscribers sender_contact = some info)
    (hlen : (pySplit msg).length = 5)
    (hph : phoneOk ((pySplit msg).getD 1 "") = true)
    (hex : dictHas st.subscribers
      ("whatsapp:" ++ (pySplit msg).getD 1 "") = true) :
    add_subscriber env st msg sender_contact
      = some (env.langs.get_exists_err info.lang, st, []) := by
  unfold add_subscriber
  rw [hs]
  simp only [hlen, hph, hex]
  rfl

/-- Witness for C4: adding Bob's existing contact again fails with the
exists error and returns the state unchanged. -/
theorem add_existing_rejected_witness :
    add_subscriber envC stC "/add +15550000001 Dave en user" aliceKey
      = some (langsC.get_exists_err "en", stC, []) :=
  add_existing_rejected envC stC "/add +15550000001 Dave en user" aliceKey
    aliceInfo (by decide) (by decide) (by decide) (by decide)

/-- Counterexample to C4 as stated: two `/add` commands naming contacts
that (after wrapping) are already registry keys do NOT return the
"already exists" error — a 5-token command whose contact fails the
phone-format check returns the phone-format error, and a 2-token command
returns the usage error, because both checks run before the existence
check. -/
theorem add_existing_counterexample :
    dictHas stAbc.subscribers ("whatsapp:" ++ "abc") = true
    ∧ add_subscriber envC stAbc "/add abc Eve en user" aliceKey
        = some (langsC.get_add_phone_err "en", stAbc, [])
    ∧ langsC.get_add_phone_err "en" ≠ langsC.get_exists_err "en"
    ∧ dictHas stC.subscribers ("whatsapp:" ++ "+15550000001") = true
    ∧ add_subscriber envC stC "/add +15550000001" aliceKey
        = some (langsC.get_add_err "en", stC, [])
    ∧ langsC.get_add_err "en" ≠ langsC.get_exists_err "en" :=
  ⟨by decide, by decide, by decide, by decide, by decide, by decide⟩

/-- C5: `/add` validation is performed in the fixed order token-count,
phone-format, contact-already-exists, name-collision, language-validity,
role-validity; the error returned is exactly that of the first failing
check, and when every check passes the subscriber is inserted, the
reverse index updated, and the registry persisted (primary re-encrypted
and copied verbatim to backup). -/
theorem add_validation_order (env : Env) (st : BotState)
    (msg sender_contact : String) (info : SubscriberInfo)
    (hs : dictGet st.subscribers sender_contact = some info) :
    ((pySplit msg).length ≠ 5 →
      add_subscriber env st msg sender_contact
        = some (env.langs.get_add_err info.lang, st, []))
    ∧ ((pySplit msg).length = 5 →
       phoneOk ((pySplit msg).getD 1 "") = false →
       add_subscriber env st msg sender_contact
         = some (env.langs.get_add_phone_err info.lang, st, []))
    ∧ ((pySplit msg).length = 5 →
       phoneOk ((pySplit msg).getD 1 "") = true →
       dictHas st.subscribers ("whatsapp:" ++ (pySplit msg).getD 1 "") = true →
       add_subscriber env st msg sender_contact
         = some (env.langs.get_exists_err info.lang, st, []))
    ∧ ((pySplit msg).length = 5 →
       phoneOk ((pySplit msg).getD 1 "") = true →
       dictHas st.subscribers ("whatsapp:" ++ (pySplit msg).getD 1 "") = false →
       dictHas st.display_names ((pySplit msg).getD 2 "") = true →
       add_subscriber env st msg sender_contact
         = some (env.langs.get_add_name_err info.lang, st, []))
    ∧ ((pySplit msg).length = 5 →
       phoneOk ((pySplit msg).getD 1 "") = true →
       dictHas st.subscribers ("whatsapp:" ++ (pySplit msg).getD 1 "") = false →
       dictHas st.display_names ((pySplit msg).getD 2 "") = false →
       (pySplit msg).getD 3 "" ∉ env.langs.codes →
       add_subscriber env st msg sender_contact
         = some (env.langs.get_add_lang_err info.lang, st, []))
    ∧ ((pySplit msg).length = 5 →
       phoneOk ((pySplit msg).getD 1 "") = true →
       dictHas st.subscribers ("whatsapp:" ++ (pySplit msg).getD 1 "") = false →
       dictHas st.display_names ((pySplit msg).getD 2 "") = false →
       (pySplit msg).getD 3 "" ∈ env.langs.codes →
       (pySplit msg).getD 4 "" ∉ validRoles →
       add_subscriber env st msg sender_contact
         = some (env.langs.get_add_role_err info.lang, st, []))
    ∧ ((pySplit msg).length = 5 →
       phoneOk ((pySplit msg).getD 1 "") = true →
       dictHas st.subscribers ("whatsapp:" ++ (pySplit msg).getD 1 "") = false →
       dictHas st.display_names ((pySplit msg).getD 2 "") = false →
       (pySplit msg).getD 3 "" ∈ env.langs.codes →
       (pySplit msg).getD 4 "" ∈ validRoles →
       add_subscriber env st msg sender_contact
         = some (env.langs.get_add_success info.lang,
             { subscribers := dictInsert st.subscribers
                 ("whatsapp:" ++ (pySplit msg).getD 1 "")
                 ⟨(pySplit msg).getD 2 "", (pySplit msg).getD 3 "",
                  (pySplit msg).getD 4 ""⟩,
               display_names := dictInsert st.display_names
                 ((pySplit msg).getD 2 "")
                 ("whatsapp:" ++ (pySplit msg).getD 1 ""),
               primary := env.enc (dumpRegistry (dictInsert st.subscribers
                 ("whatsapp:" ++ (pySplit msg).getD 1 "")
                 ⟨(pySplit msg).getD 2 "", (pySplit msg).getD 3 "",
                  (pySplit msg).getD 4 ""⟩)),
               backup := env.enc (dumpRegistry (dictInsert st.subscribers
                 ("whatsapp:" ++ (pySplit msg).getD 1 "")
                 ⟨(pySplit msg).getD 2 "", (pySplit msg).getD 3 "",
                  (pySplit msg).getD 4 ""⟩)) }, [])) := by
  unfold add_subscriber
  rw [hs]
  refine ⟨?_, ?_, ?_, ?_, ?_, ?_, ?_⟩
  · intro h1
    simp only [ne_eq, h1]
    rfl
  · intro h1 h2
    simp only [ne_eq, h1, h2]
    rfl
  · intro h1 h2 h3
    simp only [ne_eq, h1, h2, h3]
    rfl
  · intro h1 h2 h3 h4
    simp only [ne_eq, h1, h2, h3, h4]
    rfl
  · intro h1 h2 h3 h4 h5
    simp only [ne_eq, h1, h2, h3, h4, h5, ite_true, ite_false]
    rfl
  · intro h1 h2 h3 h4 h5 h6
    simp only [ne_eq, h1, h2, h3, h4, h5, h6, ite_true, ite_false]
    rfl
  · intro h1 h2 h3 h4 h5 h6
    simp only [ne_eq, h1, h2, h3, h4, h5, h6, ite_true, ite_false]
    rfl

/-- Witness for C5: a fully valid `/add` inserts Carol, updates the
reverse index, and persists the re-encrypted registry to both files. -/
theorem add_validation_order_witness :
    add_subscriber envC stC "/add +15550000002 Carol en user" aliceKey
      = some (langsC.get_add_success "en",
          { subscribers := subsC ++ [(carolKey, ⟨"Carol", "en", "user"⟩)],
            display_names := buildDisplayNames subsC ++ [("Carol", carolKey)],
            primary := envC.enc (dumpRegistry
              (subsC ++ [(carolKey, ⟨"Carol", "en", "user"⟩)])),
            backup := envC.enc (dumpRegistry
              (subsC ++ [(carolKey, ⟨"Carol", "en", "user"⟩)])) }, []) := by
  have h := (add_validation_order envC stC "/add +15550000002 Carol en user"
    aliceKey aliceInfo (by decide)).2.2.2.2.2.2 (by decide) (by decide)
    (by decide) (by decide) (by decide) (by decide)
  exact h.trans (by decide)

/-- C6: the reverse index is always exactly the inverse of the forward
map's name field: it holds right after load (given pairwise-distinct
subscriber names), it is preserved by every `_add_subscriber` call, and it
is preserved by every `_remove_subscriber` call (given pairwise-distinct
names and keys). -/
theorem reverse_index_invariant (dec : String → Option Registry)
    (primaryBytes backupBytes : String) (env : Env) (st st2 : BotState)
    (msg sender_contact r : String) (effs : List Effect) :
    (∀ st0, chatbot_init dec primaryBytes backupBytes = some st0 →
        distinctNames st0.subscribers →
        isInverse st0.subscribers st0.display_names)
    ∧ (isInverse st.subscribers st.display_names →
       add_subscriber env st msg sender_contact = some (r, st2, effs) →
       isInverse st2.subscribers st2.display_names)
    ∧ (isInverse st.subscribers st.display_names →
       distinctNames st.subscribers → distinctKeys st.subscribers →
       remove_subscriber env st msg sender_contact = some (r, st2, effs) →
       isInverse st2.subscribers st2.display_names) := by
  refine ⟨?_, ?_, ?_⟩
  · intro st0 h0 hnd
    unfold chatbot_init at h0
    cases hload : loadSubscribers dec primaryBytes backupBytes with
    | none => rw [hload] at h0; exact Option.noConfusion h0
    | some subs =>
      rw [hload] at h0
      simp only [Option.map_some', Option.some.injEq] at h0
      rw [← h0] at hnd ⊢
      exact buildDisplayNames_eq subs hnd
  · intro hinv h
    unfold add_subscriber at h
    cases hsend : dictGet st.subscribers sender_contact with
    | none => rw [hsend] at h; exact Option.noConfusion h
    | some sender =>
      rw [hsend] at h
      simp only [ne_eq] at h
      by_cases h1 : (pySplit msg).length = 5
      case neg =>
        rw [if_pos h1] at h
        simp only [Option.some.injEq, Prod.mk.injEq] at h
        exact h.2.1 ▸ hinv
      rw [if_neg (not_not_intro h1)] at h
      by_cases h2 : phoneOk ((pySplit msg).getD 1 "") = false
      case pos =>
        rw [if_pos h2] at h
        simp only [Option.some.injEq, Prod.mk.injEq] at h
        exact h.2.1 ▸ hinv
      rw [if_neg h2] at h
      by_cases h3 : dictHas st.subscribers
          ("whatsapp:" ++ (pySplit msg).getD 1 "") = true
      case pos =>
        rw [if_pos h3] at h
        simp only [Option.some.injEq, Prod.mk.injEq] at h
        exact h.2.1 ▸ hinv
      rw [if_neg h3] at h
      by_cases h4 : dictHas st.display_names ((pySplit msg).getD 2 "") = true
      case pos =>
        rw [if_pos h4] at h
        simp only [Option.some.injEq, Prod.mk.injEq] at h
        exact h.2.1 ▸ hinv
      rw [if_neg h4] at h
      by_cases h5 : (pySplit msg).getD 3 "" ∈ env.langs.codes
      case neg =>
        rw [if_pos h5] at h
        simp only [Option.some.injEq, Prod.mk.injEq] at h
        exact h.2.1 ▸ hinv
      rw [if_neg (not_not_intro h5)] at h
      by_cases h6 : (pySplit msg).getD 4 "" ∈ validRoles
      case neg =>
        rw [if_pos h6] at h
        simp only [Option.some.injEq, Prod.mk.injEq] at h
        exact h.2.1 ▸ hinv
      rw [if_neg (not_not_intro h6)] at h
      simp only [Option.some.injEq, Prod.mk.injEq] at h
      have hst := h.2.1
      rw [← hst]
      have h3f : dictHas st.subscribers
          ("whatsapp:" ++ (pySplit msg).getD 1 "") = false := by
        simpa using h3
      have h4f : dictHas st.display_names ((pySplit msg).getD 2 "") = false := by
        simpa using h4
      show dictInsert st.display_names ((pySplit msg).getD 2 "")
          ("whatsapp:" ++ (pySplit msg).getD 1 "")
        = (dictInsert st.subscribers ("whatsapp:" ++ (pySplit msg).getD 1 "")
            ⟨(pySplit msg).getD 2 "", (pySplit msg).getD 3 "",
             (pySplit msg).getD 4 ""⟩).map (fun p => (p.2.name, p.1))
      rw [dictInsert_append _ _ _ h3f, dictInsert_append _ _ _ h4f,
        List.map_append, ← hinv]
      rfl
  · intro hinv hnames hkeys h
    unfold remove_subscriber at h
    cases hsend : dictGet st.subscribers sender_contact with
    | none => rw [hsend] at h; exact Option.noConfusion h
    | some sender =>
      rw [hsend] at h
      simp only [ne_eq] at h
      by_cases h1 : (pySplit msg).length = 2
      case neg =>
        rw [if_pos h1] at h
        simp only [Option.some.injEq, Prod.mk.injEq] at h
        exact h.2.1 ▸ hinv
      rw [if_neg (not_not_intro h1)] at h
      by_cases h2 : sender_contact = (pySplit msg).getD 1 ""
      case pos =>
        rw [if_pos h2] at h
        simp only [Option.some.injEq, Prod.mk.injEq] at h
        exact h.2.1 ▸ hinv
      rw [if_neg h2] at h
      cases htgt : dictGet st.subscribers
          ("whatsapp:" ++ (pySplit msg).getD 1 "") with
      | none =>
        rw [htgt] at h
        simp only [Option.some.injEq, Prod.mk.injEq] at h
        exact h.2.1 ▸ hinv
      | some target =>
        rw [htgt] at h
        dsimp only at h
        by_cases h4 : sender.role = "admin" ∧ target.role = "super"
        case pos =>
          rw [if_pos h4] at h
          simp only [Option.some.injEq, Prod.mk.injEq] at h
          exact h.2.1 ▸ hinv
        rw [if_neg h4] at h
        by_cases h5 : dictHas st.display_names target.name = false
        case pos =>
          rw [if_pos h5] at h
          exact Option.noConfusion h
        rw [if_neg h5] at h
        simp only [Option.some.injEq, Prod.mk.injEq] at h
        have hst := h.2.1
        rw [← hst]
        show dictDelete st.display_names target.name
          = (dictDelete st.subscribers
              ("whatsapp:" ++ (pySplit msg).getD 1 "")).map
              (fun p => (p.2.name, p.1))
        unfold distinctNames at hnames
        unfold distinctKeys at hkeys
        have hmem : ("whatsapp:" ++ (pySplit msg).getD 1 "", target)
            ∈ st.subscribers := mem_of_dictGet htgt
        have hiff : ∀ p ∈ st.subscribers,
            (decide (((p.2.name, p.1) : String × String).1 ≠ target.name))
              = (decide (p.1 ≠ "whatsapp:" ++ (pySplit msg).getD 1 "")) := by
          intro p hp
          rw [decide_eq_decide]
          by_cases hn : p.2.name = target.name
          · have hpeq : p = ("whatsapp:" ++ (pySplit msg).getD 1 "", target) :=
              List.inj_on_of_nodup_map hnames hp hmem (by simpa using hn)
            have hpk : p.1 = "whatsapp:" ++ (pySplit msg).getD 1 "" := by
              rw [hpeq]
            exact iff_of_false (not_not_intro hn) (not_not_intro hpk)
          · have hpk : ¬ p.1 = "whatsapp:" ++ (pySplit msg).getD 1 "" := by
              intro hk
              have hpeq : p = ("whatsapp:" ++ (pySplit msg).getD 1 "", target) :=
                List.inj_on_of_nodup_map hkeys hp hmem (by simpa using hk)
              exact hn (by rw [hpeq])
            exact iff_of_true hn hpk
        unfold dictDelete
        rw [hinv, filter_map_comm]
        have hfc : List.filter
              (fun a => decide (((a.2.name, a.1) : String × String).1
                ≠ target.name)) st.subscribers
            = List.filter (fun p => decide
                (p.1 ≠ "whatsapp:" ++ (pySplit msg).getD 1 "")) st.subscribers :=
          List.filter_congr hiff
        rw [hfc]

/-- Witness for C6: after Alice adds Carol to `stC`, the updated reverse
index is exactly the inverse of the updated registry. -/
theorem reverse_index_invariant_witness :
    isInverse (dictInsert subsC carolKey ⟨"Carol", "en", "user"⟩)
      (dictInsert (buildDisplayNames subsC) "Carol" carolKey) :=
  (reverse_index_invariant (fun _ => none) "" "" envC stC
    { subscribers := dictInsert subsC carolKey ⟨"Carol", "en", "user"⟩,
      display_names := dictInsert (buildDisplayNames subsC) "Carol" carolKey,
      primary := envC.enc (dumpRegistry
        (dictInsert subsC carolKey ⟨"Carol", "en", "user"⟩)),
      backup := envC.enc (dumpRegistry
        (dictInsert subsC carolKey ⟨"Carol", "en", "user"⟩)) }
    "/add +15550000002 Carol en user" aliceKey
    (langsC.get_add_success "en") []).2.1 (by rfl) (by decide)

/-- C10: for an admin or super sender, a plain-text message (no
private-message marker, no recognized command, no slash token) returns
the value of `_push` directly — the empty string on success or the
provider error string on failure — without the reply envelope, whereas
every recognized slash-command result (`/test`, `/add`, `/remove`,
`/list`) and every private-message result is wrapped via `_reply`. -/
theorem admin_result_wrapping (env : Env) (st : BotState)
    (msg sender_contact : String) (media : List String)
    (info : SubscriberInfo) (w : String)
    (hs : dictGet st.subscribers sender_contact = some info)
    (hrole : ¬ info.role = "user")
    (hne : ¬ (msg = "" ∧ media.length = 0))
    (hw : word1 msg = some w) :
    ((¬ pyTake1 w = pm_char ∧ ¬ w = "/test" ∧ ¬ w = "/add" ∧ ¬ w = "/remove"
        ∧ ¬ w = "/list" ∧ ¬ (pyTake1 w = "/" ∧ pyLen w > 1)) →
      process_msg env st msg sender_contact media
        = some ((push env st (info.name ++ " says:\n" ++ msg)
              sender_contact media).2, st,
            (push env st (info.name ++ " says:\n" ++ msg)
              sender_contact media).1))
    ∧ (w = "/test" →
      process_msg env st msg sender_contact media
        = (test_translate env st msg sender_contact).map
            (fun q => (reply q.1, st, q.2)))
    ∧ (w = "/add" →
      process_msg env st msg sender_contact media
        = (add_subscriber env st msg sender_contact).map
            (fun q => (reply q.1, q.2.1, q.2.2)))
    ∧ (w = "/remove" →
      process_msg env st msg sender_contact media
        = (remove_subscriber env st msg sender_contact).map
            (fun q => (reply q.1, q.2.1, q.2.2)))
    ∧ (w = "/list" →
      process_msg env st msg sender_contact media
        = some (reply ("List of subscribers:\n" ++ dumpRegistry st.subscribers),
            st, []))
    ∧ (∀ t rest, pySplit msg = t :: rest → pyTake1 (pyLower t) = pm_char →
      process_msg env st msg sender_contact media
        = (query env st (joinSp rest) info.name info.lang
            (pyDropFirst t) media).map (fun q => (reply q.2, st, q.1))) := by
  refine ⟨?_, ?_, ?_, ?_, ?_, ?_⟩
  · intro ⟨hpm, h1, h2, h3, h4, h5⟩
    have hp := process_plain env st msg sender_contact media info w hs hne hw
      hpm h1 h2 h3 h4 h5
    rw [hp, if_neg hrole]
  · intro hcmd
    subst hcmd
    unfold process_msg
    rw [hs]
    simp only [if_neg hne, hw]
    rw [if_neg (by decide : ¬ pyTake1 "/test" = pm_char)]
    unfold role_dispatch
    rw [if_neg hrole, if_pos rfl]
  · intro hcmd
    subst hcmd
    unfold process_msg
    rw [hs]
    simp only [if_neg hne, hw]
    rw [if_neg (by decide : ¬ pyTake1 "/add" = pm_char)]
    unfold role_dispatch
    rw [if_neg hrole, if_neg (by decide : ¬ ("/add" : String) = "/test"),
      if_pos rfl]
  · intro hcmd
    subst hcmd
    unfold process_msg
    rw [hs]
    simp only [if_neg hne, hw]
    rw [if_neg (by decide : ¬ pyTake1 "/remove" = pm_char)]
    unfold role_dispatch
    rw [if_neg hrole, if_neg (by decide : ¬ ("/remove" : String) = "/test"),
      if_neg (by decide : ¬ ("/remove" : String) = "/add"), if_pos rfl]
  · intro hcmd
    subst hcmd
    unfold process_msg
    rw [hs]
    simp only [if_neg hne, hw]
    rw [if_neg (by decide : ¬ pyTake1 "/list" = pm_char)]
    unfold role_dispatch
    rw [if_neg hrole, if_neg (by decide : ¬ ("/list" : String) = "/test"),
      if_neg (by decide : ¬ ("/list" : String) = "/add"),
      if_neg (by decide : ¬ ("/list" : String) = "/remove"), if_pos rfl]
  · intro t rest hsplit hpm
    exact process_pm env st msg sender_contact media info t rest hs hsplit hpm

/-- Witness for C10: admin Alice's plain text comes back as the raw push
result (the bare empty string, not the reply envelope), while her `/list`
goes through the envelope. -/
theorem admin_result_wrapping_witness :
    process_msg envC stC "hello" aliceKey []
      = some ("", stC,
          [Effect.translateCall "Alice says:\nhello" "es",
           Effect.sendMsg bobKey "[es]Alice says:\nhello" []])
    ∧ process_msg envC stC "/list" aliceKey []
        = some (reply ("List of subscribers:\n" ++ dumpRegistry subsC),
            stC, []) := by
  constructor
  · have h := (admin_result_wrapping envC stC "hello" aliceKey [] aliceInfo
      "hello" (by decide) (by decide) (by decide) (by decide)).1
      ⟨by decide, by decide, by decide, by decide, by decide, by decide⟩
    exact h.trans (by decide)
  · have h := (admin_result_wrapping envC stC "/list" aliceKey [] aliceInfo
      "/list" (by decide) (by decide) (by decide) (by decide)).2.2.2.2.1 rfl
    exact h.trans (by decide)

end TransLingo
